import Mathlib

/-!
Verification of workmux sandbox / multiplexer claims.

Shallow embedding of the parts of the `workmux` code base that the claims
concern:

* `src/sandbox/lima/wrap.rs` — `shell_escape` and the single-quote wrapping
  used when building `sh -c` arguments;
* `src/sandbox/container.rs` — `wrap_for_container`, its argument vector and
  the git-worktree double mount;
* `src/sandbox/lima/instance.rs` — `LimaInstanceInfo`, `parse_lima_instances`
  and `stop_by_name`;
* `src/multiplexer/zellij.rs` — `validate_agent_alive` and the session-mode
  operations of the tab-centric backend;
* `src/command/sandbox_run.rs` / `src/command/sandbox.rs` — exit-code
  propagation of the sandbox supervisor;
* `src/command/set_window_status.rs` — the `set-window-status` command.

Strings are modelled as `List Char` throughout so that all definitions are
executable and kernel-reducible.  Effectful calls (process spawning, file
system, live multiplexer queries) are modelled by passing their observable
outcomes in as parameters; the pure control flow around them is translated
from the Rust source line by line.
-/

namespace Workmux

/-! ## POSIX shell-word semantics (for claim C1)

A small evaluator for how a POSIX shell turns one word into a string, limited
to the constructs that `shell_escape` output can contain.  `shEval` walks the
character list with a mode saying whether we are outside quotes, inside a
single-quoted region, or right after an unquoted backslash:

* inside single quotes every character is literal until the closing `'`;
* outside quotes, `'` opens a quoted region and `\c` yields the literal
  character `c` (backslash–newline would be a line continuation, which we
  refuse to model: `none`);
* every other unquoted character (`$`, backtick, `"`, spaces, globs, …) could
  trigger expansion, field splitting or globbing, so the evaluator refuses
  (`none`).  A word that evaluates to `some s` is therefore a single shell
  word that the shell expands to exactly `s` with no further processing.
-/

inductive ShMode where
  /-- outside any quoting construct -/
  | unq
  /-- inside a single-quoted region -/
  | quo
  /-- immediately after an unquoted backslash -/
  | esc
deriving DecidableEq

def shEval : ShMode → List Char → Option (List Char)
  | .unq, [] => some []
  | .quo, [] => none
  | .esc, [] => none
  | .unq, c :: rest =>
    if c = '\'' then shEval .quo rest
    else if c = '\\' then shEval .esc rest
    else none
  | .quo, c :: rest =>
    if c = '\'' then shEval .unq rest
    else Option.map (fun t => c :: t) (shEval .quo rest)
  | .esc, d :: rest =>
    if d = '\n' then none
    else Option.map (fun t => d :: t) (shEval .unq rest)

/-- Function `shell_escape` from `src/sandbox/lima/wrap.rs`:
`s.replace('\'', "'\\''")` — every single quote becomes the four characters
`'\''`.  The same replacement is done inline by `wrap_for_container` in
`src/sandbox/container.rs` (`command.replace('\'', "'\\''")`). -/
def shell_escape : List Char → List Char
  | [] => []
  | c :: rest =>
    if c = '\'' then '\'' :: '\\' :: '\'' :: '\'' :: shell_escape rest
    else c :: shell_escape rest

/-- Wrapping an escaped string in single quotes, as done by both
`wrap_for_lima` (`format!("... sh -c '{}'", shell_escape(...))`) and
`wrap_for_container` (`format!("'{}'", escaped_command)`). -/
def singleQuoteWrap (s : List Char) : List Char :=
  '\'' :: shell_escape s ++ ['\'']

theorem shEval_quo_quote (l : List Char) : shEval .quo ('\'' :: l) = shEval .unq l := rfl

theorem shEval_quo_other (c : Char) (l : List Char) (h : ¬ c = '\'') :
    shEval .quo (c :: l) = Option.map (fun t => c :: t) (shEval .quo l) := by
  rw [shEval, if_neg h]

theorem shEval_unq_quote (l : List Char) : shEval .unq ('\'' :: l) = shEval .quo l := rfl

theorem shEval_unq_backslash (l : List Char) : shEval .unq ('\\' :: l) = shEval .esc l := rfl

theorem shEval_esc (d : Char) (l : List Char) (h : ¬ d = '\n') :
    shEval .esc (d :: l) = Option.map (fun t => d :: t) (shEval .unq l) := by
  rw [shEval, if_neg h]

theorem shEval_quo_escape_append (s : List Char) :
    ∀ k, shEval .quo (shell_escape s ++ '\'' :: k)
      = Option.map (fun t => s ++ t) (shEval .unq k) := by
  induction s with
  | nil =>
    intro k
    rw [show shell_escape [] ++ '\'' :: k = '\'' :: k from rfl, shEval_quo_quote]
    cases shEval .unq k <;> rfl
  | cons c rest ih =>
    intro k
    by_cases hc : c = '\''
    · subst hc
      rw [show shell_escape ('\'' :: rest) ++ '\'' :: k
            = '\'' :: '\\' :: '\'' :: '\'' :: (shell_escape rest ++ '\'' :: k) from by
          simp [shell_escape]]
      rw [shEval_quo_quote, shEval_unq_backslash, shEval_esc _ _ (by decide),
        shEval_unq_quote, ih k]
      cases shEval .unq k <;> rfl
    · rw [show shell_escape (c :: rest) ++ '\'' :: k
            = c :: (shell_escape rest ++ '\'' :: k) from by simp [shell_escape, hc]]
      rw [shEval_quo_other _ _ hc, ih k]
      cases shEval .unq k <;> rfl

/-- Claim C1. For every string `s` (including strings containing single quotes),
replacing each `'` by `'\''` and wrapping the result in single quotes — the
escape-and-wrap done by `shell_escape` in `src/sandbox/lima/wrap.rs` and
inline by `wrap_for_container` in `src/sandbox/container.rs` — yields a single
shell word that a POSIX shell evaluates back to exactly `s`: `shEval` returns
`some s`, which in particular means no character of the word is ever read in
an unquoted position where expansion, splitting or globbing could apply, so
`sh -c` applied to the word prints `s` literally. -/
theorem shell_escape_wrap_evaluates_to_original (s : List Char) :
    shEval .unq (singleQuoteWrap s) = some s := by
  show shEval .unq ('\'' :: (shell_escape s ++ ['\''])) = some s
  rw [shEval_unq_quote]
  rw [show shell_escape s ++ ['\''] = shell_escape s ++ '\'' :: [] from rfl]
  rw [shEval_quo_escape_append s []]
  simp [shEval]

/-! ## Agent liveness validation on the Zellij backend (claims C2, C3)

From `src/multiplexer/zellij.rs`.  `validate_agent_alive` takes the stored
agent record and (on the slow path) queries `get_live_pane_info` for the
record's pane.  We embed the function over the observable outcome of that
query: `live : Option LivePaneInfo` is the `Ok` value that
`self.get_live_pane_info(&state.pane_key.pane_id)` returned (`none` = the
pane does not exist).  The wall clock, read in the code via
`SystemTime::now().duration_since(UNIX_EPOCH)`, is passed in as `now`
(seconds).  The `_cached_tabs` argument is kept because the Rust signature
has it; the Zellij implementation never reads it. -/

/-- Rust `str::split(sep)` on a character separator: the list of (possibly
empty) chunks between separators.  `"".split('/')` is `[""]` and
`"/".split('/')` is `["", ""]`, exactly as in Rust. -/
def rustSplitChar (sep : Char) : List Char → List (List Char)
  | [] => [[]]
  | c :: rest =>
    if c = sep then [] :: rustSplitChar sep rest
    else
      match rustSplitChar sep rest with
      | [] => [[c]]
      | h :: t => (c :: h) :: t

/-- Rust `s.split('/').last().unwrap_or(s)`: the basename extraction used by
`validate_agent_alive` on both the stored and the live command.  The split is
never empty, so the `unwrap_or` default never fires, but we keep it. -/
def rustBasename (s : List Char) : List Char :=
  (rustSplitChar '/' s).getLastD s

/-- The pane key stored in an agent record (`state.pane_key.pane_id`). -/
structure PaneKey where
  pane_id : List Char
deriving DecidableEq

/-- The fields of `crate::state::AgentState` that `validate_agent_alive`
reads: the pane key, the stored launch command and the optional heartbeat
timestamp (wall-clock seconds). -/
structure AgentState where
  pane_key : PaneKey
  command : List Char
  last_heartbeat : Option Nat
deriving DecidableEq

/-- Structure `LivePaneInfo` as built by `ZellijBackend::get_live_pane_info`. -/
structure LivePaneInfo where
  pid : Nat
  current_command : List Char
  working_dir : List Char
  title : Option (List Char)
  session : Option (List Char)
  window : Option (List Char)
deriving DecidableEq

/-- Constant `Duration::from_secs(60)` from the fast path of `validate_agent_alive`. -/
def heartbeat_fresh_threshold : Nat := 60

/-- The live-pane portion of `validate_agent_alive` (everything after the
heartbeat fast path): the pane must exist, and when both the stored command
and the live command are non-empty their basenames must agree. -/
def agentLiveCheck (state : AgentState) (live : Option LivePaneInfo) : Bool :=
  match live with
  | none => false
  | some pane_info =>
    if state.command ≠ [] ∧ pane_info.current_command ≠ [] then
      if rustBasename state.command ≠ rustBasename pane_info.current_command then
        false
      else true
    else true

/-- Function `ZellijBackend::validate_agent_alive` from `src/multiplexer/zellij.rs`:
heartbeat fast path (`age < 60` ⇒ alive, `age > 300` ⇒ dead, with
`age = now.saturating_sub(last_heartbeat)`), otherwise the live-pane check
`agentLiveCheck`. -/
def validate_agent_alive (now : Nat) (state : AgentState)
    (_cached_tabs : Option (List (List Char))) (live : Option LivePaneInfo) : Bool :=
  match state.last_heartbeat with
  | some last_heartbeat =>
    let heartbeat_age_secs := now - last_heartbeat
    if heartbeat_age_secs < heartbeat_fresh_threshold then true
    else if heartbeat_age_secs > 300 then false
    else agentLiveCheck state live
  | none => agentLiveCheck state live

/-- A concrete agent record with no heartbeat, as stored for a `claude`
agent in pane `terminal_7`. -/
def cexState : AgentState :=
  { pane_key := ⟨"terminal_7".toList⟩, command := "claude".toList, last_heartbeat := none }

/-- A live pane whose `current_command` came back empty
(`extract_base_command` returns `""` when the pane reports neither a
`pane_command` nor a `terminal_command`). -/
def cexPane : LivePaneInfo :=
  { pid := 0, current_command := [], working_dir := "/w".toList,
    title := none, session := none, window := none }

/-- Claim C2, counterexample. The claimed equivalence — with no heartbeat,
`validate_agent_alive` is true iff the pane exists and the stored command's
basename equals the live command's basename — fails at a concrete input: for
a record storing command `claude` whose pane exists but reports an empty
`current_command`, the function returns `true` although the basenames
(`claude` vs `""`) differ, because the code only runs the basename
comparison when both commands are non-empty. -/
theorem validate_no_heartbeat_iff_basename_refuted :
    ¬ (validate_agent_alive 1000 cexState none (some cexPane) = true ↔
        ((some cexPane).isSome = true ∧
          rustBasename cexState.command = rustBasename cexPane.current_command)) := by
  decide

/-- Claim C2, amended. For a record whose `last_heartbeat` is not set,
`validate_agent_alive` on the Zellij backend returns true iff the record's
pane exists in live pane info and, *in case both the stored command and the
live `current_command` are non-empty*, their basenames agree; a basename
mismatch between two non-empty commands (the process was replaced) yields
false and a missing pane yields false.  When either command string is empty
the pane's existence alone decides. -/
theorem validate_no_heartbeat_iff (now : Nat) (state : AgentState)
    (cached : Option (List (List Char))) (live : Option LivePaneInfo)
    (h : state.last_heartbeat = none) :
    validate_agent_alive now state cached live = true ↔
      ∃ info, live = some info ∧
        (state.command = [] ∨ info.current_command = [] ∨
          rustBasename state.command = rustBasename info.current_command) := by
  unfold validate_agent_alive
  rw [h]
  cases live with
  | none => simp [agentLiveCheck]
  | some info =>
    simp only [agentLiveCheck]
    by_cases h1 : state.command = []
    · simp [h1]
    · by_cases h2 : info.current_command = []
      · simp [h1, h2]
      · by_cases h3 : rustBasename state.command = rustBasename info.current_command
        · simp [h1, h2, h3]
        · simp [h1, h2, h3]

/-- Witness record for the amended C2: no heartbeat, command `claude`. -/
def witState : AgentState :=
  { pane_key := ⟨"terminal_7".toList⟩, command := "claude".toList, last_heartbeat := none }

/-- Witness live pane running `/usr/bin/claude`. -/
def witPane : LivePaneInfo :=
  { pid := 0, current_command := "claude".toList, working_dir := "/w".toList,
    title := none, session := none, window := none }

/-- Closed instance of the amended C2 at a concrete record and pane. -/
theorem validate_no_heartbeat_iff_witness :
    witState.last_heartbeat = none ∧
      validate_agent_alive 1000 witState none (some witPane) = true :=
  ⟨rfl, (validate_no_heartbeat_iff 1000 witState none (some witPane) rfl).mpr
    ⟨witPane, rfl, Or.inr (Or.inr (by decide))⟩⟩

/-- Claim C3. For a record with `last_heartbeat = some hb`, the Zellij
`validate_agent_alive` follows the heartbeat fast path: if the heartbeat age
`now - hb` (saturating) is under 60 s it returns alive for *every* value of
the live-pane query (i.e. without consulting it); if the age exceeds 300 s
it returns dead for every value; and for any age in `[60, 300]` it returns
exactly the live-pane existence-and-basename check `agentLiveCheck`. -/
theorem validate_heartbeat_fast_path (now hb : Nat) (state : AgentState)
    (cached : Option (List (List Char))) (h : state.last_heartbeat = some hb) :
    (now - hb < 60 → ∀ live, validate_agent_alive now state cached live = true) ∧
    (300 < now - hb → ∀ live, validate_agent_alive now state cached live = false) ∧
    (60 ≤ now - hb → now - hb ≤ 300 →
      ∀ live, validate_agent_alive now state cached live = agentLiveCheck state live) := by
  unfold validate_agent_alive
  rw [h]
  refine ⟨fun hfresh live => ?_, fun hstale live => ?_, fun hlo hhi live => ?_⟩
  · simp only [heartbeat_fresh_threshold]
    rw [if_pos hfresh]
  · simp only [heartbeat_fresh_threshold]
    rw [if_neg (by omega), if_pos hstale]
  · simp only [heartbeat_fresh_threshold]
    rw [if_neg (by omega), if_neg (by omega)]

/-- A record heartbeaten 30 s ago (spec example: fast path returns true). -/
def hbStateFresh : AgentState :=
  { pane_key := ⟨"terminal_7".toList⟩, command := "claude".toList,
    last_heartbeat := some 970 }

/-- Closed instance of C3: heartbeat 30 s old ⇒ alive with no pane info;
heartbeat 400 s old ⇒ dead with no pane info. -/
theorem validate_heartbeat_fast_path_witness :
    validate_agent_alive 1000 hbStateFresh none none = true ∧
      validate_agent_alive 1370 hbStateFresh none none = false :=
  ⟨(validate_heartbeat_fast_path 1000 970 hbStateFresh none rfl).1 (by decide) none,
    (validate_heartbeat_fast_path 1370 970 hbStateFresh none rfl).2.1 (by decide) none⟩

/-! ## Session-mode operations of the Zellij backend (claim C4)

From `src/multiplexer/zellij.rs`, the "Session Management (not supported in
Zellij)" block and the two shell-command helpers.  Fallible Rust functions
returning `anyhow::Result` are embedded as `Except String`, with the error
carrying the literal `anyhow!` message. -/

namespace ZellijSession

/-- Error message of `create_session`. -/
def createSessionErr : String :=
  "Session mode (--session) is not supported in Zellij. Use window mode instead."

/-- Error message of the remaining unsupported session operations. -/
def sessionModeErr : String :=
  "Session mode is not supported in Zellij. Use window mode instead."

/-- Operation `create_session`: always errors.  The `CreateSessionParams` argument is
ignored by the Rust code, so its type is left abstract. -/
def create_session {α : Type} (_params : α) : Except String (List Char) :=
  .error createSessionErr

/-- Operation `switch_to_session`: always errors. -/
def switch_to_session (_pfx _name : List Char) : Except String Unit :=
  .error sessionModeErr

/-- Operation `session_exists`: silently reports `false`. -/
def session_exists (_full_name : List Char) : Except String Bool :=
  .ok false

/-- Operation `kill_session`: a silent no-op returning `Ok(())`. -/
def kill_session (_full_name : List Char) : Except String Unit :=
  .ok ()

/-- Operation `schedule_session_close`: always errors (delay in seconds). -/
def schedule_session_close (_full_name : List Char) (_delay : Nat) : Except String Unit :=
  .error sessionModeErr

/-- Operation `get_all_session_names`: silently returns the empty set
(`HashSet::new()`, modelled as the empty list). -/
def get_all_session_names : Except String (List (List Char)) :=
  .ok []

/-- Operation `wait_until_session_closed`: always errors. -/
def wait_until_session_closed (_full_session_name : List Char) : Except String Unit :=
  .error sessionModeErr

/-- Operation `shell_switch_session_cmd`: always errors. -/
def shell_switch_session_cmd (_full_name : List Char) : Except String (List Char) :=
  .error sessionModeErr

/-- Operation `shell_kill_session_cmd`: always errors. -/
def shell_kill_session_cmd (_full_name : List Char) : Except String (List Char) :=
  .error sessionModeErr

end ZellijSession

/-- Claim C4, counterexample. Not every session-mode operation of the Zellij
backend returns an error: at the concrete session name `"wm-x"`,
`kill_session` returns `Ok(())` (a silent no-op), `session_exists` returns
`Ok(false)` and `get_all_session_names` returns `Ok(∅)`.  This refutes the
claim that every session-mode call "returns an error that names the
unsupported operation" and "is never a silent no-op". -/
theorem session_ops_all_error_refuted :
    ZellijSession.kill_session "wm-x".toList = Except.ok () ∧
      ZellijSession.session_exists "wm-x".toList = Except.ok false ∧
      ZellijSession.get_all_session_names = Except.ok [] :=
  ⟨rfl, rfl, rfl⟩

/-- Claim C4, amended. Of the nine session-mode operations of the Zellij
backend, six — `create_session`, `switch_to_session`,
`schedule_session_close`, `wait_until_session_closed`,
`shell_switch_session_cmd`, `shell_kill_session_cmd` — return, for every
input, an error whose message names session mode as unsupported; the other
three are silent successes: `session_exists` answers `Ok(false)`,
`kill_session` is a no-op `Ok(())`, and `get_all_session_names` answers the
empty set. -/
theorem session_ops_behaviour :
    (∀ (α : Type) (p : α),
        ZellijSession.create_session p = Except.error ZellijSession.createSessionErr) ∧
    (∀ pfx name,
        ZellijSession.switch_to_session pfx name = Except.error ZellijSession.sessionModeErr) ∧
    (∀ name delay,
        ZellijSession.schedule_session_close name delay
          = Except.error ZellijSession.sessionModeErr) ∧
    (∀ name,
        ZellijSession.wait_until_session_closed name
          = Except.error ZellijSession.sessionModeErr) ∧
    (∀ name,
        ZellijSession.shell_switch_session_cmd name
          = Except.error ZellijSession.sessionModeErr) ∧
    (∀ name,
        ZellijSession.shell_kill_session_cmd name
          = Except.error ZellijSession.sessionModeErr) ∧
    (∀ name, ZellijSession.session_exists name = Except.ok false) ∧
    (∀ name, ZellijSession.kill_session name = Except.ok ()) ∧
    ZellijSession.get_all_session_names = Except.ok [] :=
  ⟨fun _ _ => rfl, fun _ _ => rfl, fun _ _ => rfl, fun _ => rfl, fun _ => rfl,
    fun _ => rfl, fun _ => rfl, fun _ => rfl, rfl⟩

/-! ## Sandbox supervisor exit-code propagation (claims C5, C10)

From `src/command/sandbox_run.rs` (`run`) and `src/command/sandbox.rs`
(the `SandboxCommand::Run` arm).  The effectful steps of the supervisor are
passed in as their observable outcomes: `SandboxRunEnv` holds the result of
`Config::load`, `lima::ensure_vm_running`, the best-effort
`seed_claude_json`, `RpcServer::bind`, `current_pane_id`, and the wait on
the spawned `limactl shell` child.  `childStatus = Except.error _` models a
failed spawn/wait; `Except.ok c?` models a terminated child, with `c?` the
Rust `ExitStatus::code()` (`none` = killed by a signal). -/

/-- Outcomes of the effectful calls made by `sandbox_run::run`, in program
order. -/
structure SandboxRunEnv where
  configLoad : Except String Unit
  ensureVm : Except String (List Char)
  seedClaude : Except String Unit
  rpcBind : Except String Nat
  currentPane : Option (List Char)
  childStatus : Except String (Option Int)

/-- Function `sandbox_run::run`: bail on an empty command list, run the effectful
steps in order (`seed_claude_json` is best-effort — its failure only logs a
warning — and the pane id is only stored in the RPC context), then
`status.code().unwrap_or(1)` wrapped in `Ok`. -/
def sandbox_run (_worktree : List Char) (command : List (List Char))
    (env : SandboxRunEnv) : Except String Int :=
  if command.isEmpty then
    .error "No command specified. Usage: workmux sandbox run <worktree> -- <command...>"
  else do
    let _ ← env.configLoad
    let _vm_name ← env.ensureVm
    -- seed_claude_json: result inspected only for a log line
    let _rpc_port ← env.rpcBind
    let _pane_id := env.currentPane.getD []
    let status ← env.childStatus
    pure (status.getD 1)

/-- What the `workmux` process does after the `SandboxCommand::Run` arm of
`src/command/sandbox.rs`. -/
inductive ProcessOutcome where
  | exited (code : Int)
  | failed (msg : String)
deriving DecidableEq

/-- The `SandboxCommand::Run` arm: on `Ok(exit_code)` the process terminates
via `std::process::exit(exit_code)`; an `Err` propagates to `main`'s error
path. -/
def sandbox_command_run (worktree : List Char) (command : List (List Char))
    (env : SandboxRunEnv) : ProcessOutcome :=
  match sandbox_run worktree command env with
  | .ok exit_code => .exited exit_code
  | .error e => .failed e

/-- Claim C5. For every worktree path and non-empty command list, if the
supervisor's effectful steps succeed and the spawned `limactl shell` child
exits with exit code `c`, then `sandbox_run::run` returns `Ok(c)` and the
`sandbox run` CLI arm terminates the process with exit code `c`. -/
theorem sandbox_run_propagates_exit_code (wt : List Char)
    (command : List (List Char)) (env : SandboxRunEnv) (c : Int) (vm : List Char)
    (port : Nat)
    (hne : command ≠ [])
    (hcfg : env.configLoad = .ok ())
    (hvm : env.ensureVm = .ok vm)
    (hrpc : env.rpcBind = .ok port)
    (hchild : env.childStatus = .ok (some c)) :
    sandbox_run wt command env = .ok c ∧
      sandbox_command_run wt command env = .exited c := by
  obtain ⟨a, t, rfl⟩ := List.exists_cons_of_ne_nil hne
  have hrun : sandbox_run wt (a :: t) env = .ok c := by
    unfold sandbox_run
    rw [hcfg, hvm, hrpc, hchild]
    rfl
  exact ⟨hrun, by unfold sandbox_command_run; rw [hrun]⟩

/-- An environment where every supervisor step succeeded and the child
finished with the given status. -/
def okEnv (st : Option Int) : SandboxRunEnv :=
  { configLoad := .ok (), ensureVm := .ok "wm-abc".toList, seedClaude := .ok (),
    rpcBind := .ok 45000, currentPane := some "terminal_3".toList,
    childStatus := .ok st }

/-- Closed instance of C5: child exited with code 7 ⇒ supervisor returns
`Ok(7)` and the CLI exits with 7. -/
theorem sandbox_run_propagates_exit_code_witness :
    sandbox_run "/w".toList ["claude".toList] (okEnv (some 7)) = .ok 7 ∧
      sandbox_command_run "/w".toList ["claude".toList] (okEnv (some 7)) = .exited 7 :=
  sandbox_run_propagates_exit_code "/w".toList ["claude".toList] (okEnv (some 7)) 7
    "wm-abc".toList 45000 (by decide) rfl rfl rfl rfl

/-- Claim C10. If the spawned child terminates without an exit code (e.g.
killed by a signal, `ExitStatus::code() = None`), `sandbox_run::run` returns
`Ok(1)` — neither an error nor a signal number — via
`status.code().unwrap_or(1)`. -/
theorem sandbox_run_signal_death_returns_one (wt : List Char)
    (command : List (List Char)) (env : SandboxRunEnv) (vm : List Char) (port : Nat)
    (hne : command ≠ [])
    (hcfg : env.configLoad = .ok ())
    (hvm : env.ensureVm = .ok vm)
    (hrpc : env.rpcBind = .ok port)
    (hchild : env.childStatus = .ok none) :
    sandbox_run wt command env = .ok 1 := by
  obtain ⟨a, t, rfl⟩ := List.exists_cons_of_ne_nil hne
  unfold sandbox_run
  rw [hcfg, hvm, hrpc, hchild]
  rfl

/-- Closed instance of C10: child killed by a signal ⇒ exit code 1. -/
theorem sandbox_run_signal_death_returns_one_witness :
    sandbox_run "/w".toList ["claude".toList] (okEnv none) = .ok 1 :=
  sandbox_run_signal_death_returns_one "/w".toList ["claude".toList] (okEnv none)
    "wm-abc".toList 45000 (by decide) rfl rfl rfl rfl

/-! ## `LimaInstance::stop_by_name` (claim C6)

From `src/sandbox/lima/instance.rs`.  The outcome of the underlying
`limactl stop <name>` process is passed in: `Except.error` models a failure
to even execute `limactl` (the `.with_context(...)` path), `Except.ok o`
models a completed process with `o.success = status.success()` and `o.stderr`
the captured standard error. -/

/-- The observable outcome of a completed `limactl stop` process. -/
structure CmdOutput where
  success : Bool
  stderr : List Char
deriving DecidableEq

/-- Rust `str::contains(needle)`: substring search (true at any position,
and the empty needle is contained everywhere). -/
def strContains (hay needle : List Char) : Bool :=
  match hay with
  | [] => needle.isEmpty
  | c :: t => needle.isPrefixOf (c :: t) || strContains t needle

/-- Function `LimaInstance::stop_by_name`: `Ok` on process success; on failure, `Ok`
when the stderr contains `"not running"` (idempotency short-circuit),
otherwise the formatted `bail!` error. -/
def stop_by_name (name : List Char) (output : Except (List Char) CmdOutput) :
    Except (List Char) Unit :=
  match output with
  | .error e => .error e
  | .ok o =>
    if o.success then .ok ()
    else if strContains o.stderr "not running".toList then .ok ()
    else .error ("Failed to stop Lima VM '".toList ++ name ++ "': ".toList ++ o.stderr)

/-- Claim C6. `stop_by_name` treats "already gone" as success: whenever the
underlying `limactl stop` fails but its stderr reports the VM as not
running, the call returns `Ok`.  In particular, calling `stop_by_name` twice
in succession — the first `limactl stop` succeeding, the second failing with
a "not running" message because the VM is already gone — yields `Ok` then
`Ok`, so the destructive stop operation is idempotent. -/
theorem stop_by_name_idempotent (name : List Char) (o1 o2 : CmdOutput)
    (h1 : o1.success = true)
    (h2 : o2.success = false)
    (h3 : strContains o2.stderr "not running".toList = true) :
    stop_by_name name (.ok o1) = .ok () ∧ stop_by_name name (.ok o2) = .ok () := by
  constructor
  · simp [stop_by_name, h1]
  · have h3' : strContains o2.stderr ['n', 'o', 't', ' ', 'r', 'u', 'n', 'n', 'i', 'n', 'g'] = true := by
      simpa using h3
    simp [stop_by_name, h2, h3']

/-- Closed instance of C6: a successful first stop and a second attempt
failing with Lima's actual "not running" stderr both return `Ok`. -/
theorem stop_by_name_idempotent_witness :
    stop_by_name "wm-abc".toList (.ok ⟨true, []⟩) = .ok () ∧
      stop_by_name "wm-abc".toList
        (.ok ⟨false, "instance \"wm-abc\" is not running\n".toList⟩) = .ok () :=
  stop_by_name_idempotent "wm-abc".toList ⟨true, []⟩
    ⟨false, "instance \"wm-abc\" is not running\n".toList⟩ rfl rfl (by decide)

/-! ## `parse_lima_instances` round-trip (claim C7)

From `src/sandbox/lima/instance.rs`.  `limactl list --json` output is
NDJSON: one JSON object per line.  The text layer (`from_utf8`, `lines`,
the blank-line filter, serde_json's character-level grammar) is external
library behaviour; we model the pipeline at the level of JSON documents:
the serialized form of a list is one `Json` value per line, and
`parse_lima_instances` decodes each line into a `LimaInstanceInfo` exactly
as the derived `Deserialize` does (`name` and `status` required strings,
`dir` an `Option<String>` with `#[serde(default)]`, so a missing key or
`null` both give `None`), collecting into a `Result<Vec<_>>`. -/

/-- JSON documents, as serde_json sees them on a single NDJSON line. -/
inductive Json where
  | null
  | bool (b : Bool)
  | num (n : Int)
  | str (s : List Char)
  | arr (elems : List Json)
  | obj (fields : List (List Char × Json))

/-- The struct deserialized from one `limactl list --json` row; `dir` is
`#[serde(default)]`. -/
structure LimaInstanceInfo where
  name : List Char
  status : List Char
  dir : Option (List Char)
deriving DecidableEq

/-- Derived `Serialize`: fields in declaration order, `None` as `null`. -/
def serializeInfo (i : LimaInstanceInfo) : Json :=
  .obj [("name".toList, .str i.name), ("status".toList, .str i.status),
    ("dir".toList, match i.dir with | none => .null | some d => .str d)]

/-- First value stored under a key in a JSON object's field list. -/
def lookupField (fields : List (List Char × Json)) (key : List Char) : Option Json :=
  match fields with
  | [] => none
  | (k, v) :: rest => if k = key then some v else lookupField rest key

/-- serde decoding of a required `String` field value. -/
def decodeString (j : Json) : Except (List Char) (List Char) :=
  match j with
  | .str s => .ok s
  | _ => .error "invalid type: expected a string".toList

/-- serde decoding of an `Option<String>` field value (`null` ⇒ `None`). -/
def decodeOptString (j : Json) : Except (List Char) (Option (List Char)) :=
  match j with
  | .null => .ok none
  | .str s => .ok (some s)
  | _ => .error "invalid type: expected a string or null".toList

/-- Derived `Deserialize for LimaInstanceInfo`: the document must be an
object; `name` and `status` are required strings; `dir` defaults to `None`
when the key is absent. -/
def decodeInfo (j : Json) : Except (List Char) LimaInstanceInfo :=
  match j with
  | .obj fields => do
    let name ← match lookupField fields "name".toList with
      | none => Except.error "missing field name".toList
      | some v => decodeString v
    let status ← match lookupField fields "status".toList with
      | none => Except.error "missing field status".toList
      | some v => decodeString v
    let dir ← match lookupField fields "dir".toList with
      | none => Except.ok none
      | some v => decodeOptString v
    .ok ⟨name, status, dir⟩
  | _ => .error "invalid type: expected an object".toList

/-- Function `parse_lima_instances` over the per-line JSON documents: decode each row
(any failure aborts with that row's error, as the Rust
`.map(...).collect::<Result<_>>()` does). -/
def parse_lima_instances (rows : List Json) : Except (List Char) (List LimaInstanceInfo) :=
  rows.mapM decodeInfo

/-- Serializing a list of `LimaInstanceInfo` to NDJSON: one document per
line. -/
def serializeInstances (l : List LimaInstanceInfo) : List Json :=
  l.map serializeInfo

theorem decodeInfo_serializeInfo (i : LimaInstanceInfo) :
    decodeInfo (serializeInfo i) = .ok i := by
  obtain ⟨n, s, d⟩ := i
  cases d <;> rfl

/-- Claim C7. `parse_lima_instances` is a left inverse of serialization: for
every list of `LimaInstanceInfo` values, serializing each element to one
JSON document per line and parsing the result returns exactly the original
list — all fields actually used (`name`, `status`, `dir`) round-trip. -/
theorem parse_lima_instances_roundtrip (l : List LimaInstanceInfo) :
    parse_lima_instances (serializeInstances l) = .ok l := by
  induction l with
  | nil => rfl
  | cons i rest ih =>
    unfold parse_lima_instances serializeInstances at *
    rw [List.map_cons, List.mapM_cons, decodeInfo_serializeInfo, ih]
    rfl

/-! ## Container wrapper (claim C8)

From `src/sandbox/container.rs`, `wrap_for_container`.  The effectful
inputs are passed in: `uid`/`gid` (the `libc::getuid()`/`getgid()` calls),
`gitFileContent` (the content of `worktree_root/.git` when it is a regular
file that was read successfully, else `none`), `sandboxPaths` (the two
host path strings from `SandboxPaths::new()`, `none` when no home
directory), the two `exists()` checks on them, and `envPresent` (whether
`std::env::var` succeeds for a passthrough variable).  The function builds
the argument vector `args` exactly as the Rust code pushes it and the
returned command string is `args.join(" ")` (`rustJoin`). -/

/-- Rust `str::strip_prefix`: the remainder after an exact prefix match. -/
def stripPrefixL : List Char → List Char → Option (List Char)
  | [], s => some s
  | _ :: _, [] => none
  | p :: ps, c :: cs => if c = p then stripPrefixL ps cs else none

/-- Rust `str::trim` restricted to the ASCII white-space characters
(space, tab, carriage return, newline); Rust additionally trims other
Unicode white space, which never occurs in the inputs considered here. -/
def rustTrim (s : List Char) : List Char :=
  ((s.dropWhile Char.isWhitespace).reverse.dropWhile Char.isWhitespace).reverse

/-- Remove trailing `/` separators, as Rust's `Path::parent` slicing does. -/
def trimTrailingSlashes (p : List Char) : List Char :=
  (p.reverse.dropWhile (· == '/')).reverse

/-- Rust `Path::parent` at the string level, for paths without `.`/`..`
components: drop trailing separators, then cut at the last separator run
(`"/a/b" ↦ some "/a"`, `"/a" ↦ some "/"`, `"a" ↦ some ""`,
`"/" ↦ none`, `"" ↦ none`). -/
def rustParent (p : List Char) : Option (List Char) :=
  let q := trimTrailingSlashes p
  if q = [] then none
  else
    let r := q.reverse.dropWhile (· != '/')
    if r = [] then some []
    else
      let r2 := r.dropWhile (· == '/')
      if r2 = [] then some ['/']
      else some r2.reverse

/-- Rust `Path::new(p).ancestors().nth(2)`: the path itself is `nth(0)`, so this
is the parent of the parent. -/
def ancestorsNth2 (p : List Char) : Option (List Char) :=
  (rustParent p).bind rustParent

/-- The `type=bind,source=…,target=…` mount specification string. -/
def bindMountArg (source target : List Char) : List Char :=
  "type=bind,source=".toList ++ source ++ ",target=".toList ++ target

/-- The container runtime selected by the config. -/
inductive ContainerRuntime where
  | podman
  | docker
deriving DecidableEq

/-- The runtime's executable name. -/
def runtimeName : ContainerRuntime → List Char
  | .podman => "podman".toList
  | .docker => "docker".toList

/-- The fields of `SandboxConfig` read by `wrap_for_container`. -/
structure ContainerConfig where
  runtime : ContainerRuntime
  image : Option (List Char)
  env_passthrough : List (List Char)

/-- The `--mount` pair for the main repo's `.git` directory: present exactly
when `.git` is a file whose content starts with `"gitdir: "` and the
trimmed gitdir path has a second ancestor. -/
def gitMountArgs (gitFileContent : Option (List Char)) : List (List Char) :=
  match gitFileContent with
  | none => []
  | some content =>
    match stripPrefixL "gitdir: ".toList content with
    | none => []
    | some rest =>
      let gitdir := rustTrim rest
      match ancestorsNth2 gitdir with
      | none => []
      | some main_git => ["--mount".toList, bindMountArg main_git main_git]

/-- The conditional sandbox-config mounts (`~/.claude-sandbox.json` and
`~/.claude-sandbox/`, each only when it exists on the host). -/
def sandboxConfigArgs (sandboxPaths : Option (List Char × List Char))
    (cfgFileExists cfgDirExists : Bool) : List (List Char) :=
  match sandboxPaths with
  | none => []
  | some (config_file, config_dir) =>
    (if cfgFileExists then
      ["--mount".toList,
        "type=bind,source=".toList ++ config_file ++ ",target=/tmp/.claude.json".toList]
    else []) ++
    (if cfgDirExists then
      ["--mount".toList,
        "type=bind,source=".toList ++ config_dir ++ ",target=/tmp/.claude".toList]
    else [])

/-- The `--env VAR` pairs for each passthrough variable present in the host
environment. -/
def envPassthroughArgs (vars : List (List Char)) (envPresent : List Char → Bool) :
    List (List Char) :=
  vars.foldr (fun v acc => if envPresent v then "--env".toList :: v :: acc else acc) []

/-- Function `wrap_for_container` from `src/sandbox/container.rs`: the argument
vector, in the exact push order of the Rust code.  The returned command
string is `rustJoin " "` of this vector. -/
def wrap_for_container (command : List Char) (config : ContainerConfig)
    (worktree_root pane_cwd : List Char) (uid gid : Nat)
    (gitFileContent : Option (List Char))
    (sandboxPaths : Option (List Char × List Char))
    (cfgFileExists cfgDirExists : Bool)
    (envPresent : List Char → Bool) : Except (List Char) (List (List Char)) :=
  match config.image with
  | none => .error "Sandbox enabled but no image configured".toList
  | some image =>
    .ok ([runtimeName config.runtime, "run".toList, "--rm".toList, "-it".toList,
      "--user".toList, (toString uid).toList ++ ':' :: (toString gid).toList,
      "--mount".toList, bindMountArg worktree_root worktree_root]
      ++ gitMountArgs gitFileContent
      ++ ["--workdir".toList, pane_cwd, "--env".toList, "HOME=/tmp".toList]
      ++ sandboxConfigArgs sandboxPaths cfgFileExists cfgDirExists
      ++ envPassthroughArgs config.env_passthrough envPresent
      ++ ["--env".toList, "PATH=/root/.local/bin:/usr/local/bin:/usr/bin:/bin".toList,
        image, "sh".toList, "-c".toList, singleQuoteWrap command])

/-- Rust `Vec::join(sep)`. -/
def rustJoin (sep : List Char) : List (List Char) → List Char
  | [] => []
  | [x] => x
  | x :: y :: t => x ++ sep ++ rustJoin sep (y :: t)

theorem stripPrefixL_self_append (p s : List Char) : stripPrefixL p (p ++ s) = some s := by
  induction p with
  | nil => rfl
  | cons c ps ih => simp [stripPrefixL, ih]

theorem dropWhile_append_of_all {α : Type} {p : α → Bool} {a b : List α}
    (h : ∀ x ∈ a, p x = true) :
    (a ++ b).dropWhile p = b.dropWhile p := by
  induction a with
  | nil => rfl
  | cons x t ih =>
    rw [List.cons_append, List.dropWhile_cons_of_pos (h x (List.mem_cons_self x t))]
    exact ih fun y hy => h y (List.mem_cons_of_mem x hy)

/-- Rust `Path::parent` of a clean path `a ++ "/" ++ b` with `b` a single
non-empty separator-free component and `a` non-empty without a trailing
separator is `a`. -/
theorem rustParent_append (a b : List Char) (ha0 : a ≠ [])
    (ha1 : a.reverse.head? ≠ some '/') (hb0 : b ≠ []) (hb1 : '/' ∉ b) :
    rustParent (a ++ '/' :: b) = some a := by
  obtain ⟨c, t, hbt⟩ : ∃ c t, b.reverse = c :: t :=
    List.exists_cons_of_ne_nil (by simpa using hb0)
  have hcb : c ∈ b := by
    have : c ∈ b.reverse := by rw [hbt]; exact List.mem_cons_self c t
    simpa using this
  have hc : (c == '/') = false := by
    simp only [beq_eq_false_iff_ne, ne_eq]
    intro h
    exact hb1 (h ▸ hcb)
  have hrev : (a ++ '/' :: b).reverse = c :: (t ++ '/' :: a.reverse) := by
    rw [List.reverse_append, List.reverse_cons, hbt]
    simp [List.append_assoc]
  have htr : trimTrailingSlashes (a ++ '/' :: b) = a ++ '/' :: b := by
    unfold trimTrailingSlashes
    rw [hrev, List.dropWhile_cons_of_neg (by simp [hc]), ← hrev, List.reverse_reverse]
  have hr : (a ++ '/' :: b).reverse.dropWhile (· != '/') = '/' :: a.reverse := by
    rw [hrev, List.dropWhile_cons_of_pos (by simp [bne, hc]),
      dropWhile_append_of_all (fun x hx => by
        have hxb : x ∈ b := by
          have : x ∈ b.reverse := by rw [hbt]; exact List.mem_cons_of_mem c hx
          simpa using this
        simp only [bne_iff_ne, ne_eq]
        intro h
        exact hb1 (h ▸ hxb)),
      List.dropWhile_cons_of_neg (by simp)]
  obtain ⟨d, s, has⟩ : ∃ d s, a.reverse = d :: s :=
    List.exists_cons_of_ne_nil (by simpa using ha0)
  have hd : (d == '/') = false := by
    rw [has] at ha1
    simpa using ha1
  have hr2 : ('/' :: a.reverse).dropWhile (· == '/') = a.reverse := by
    rw [List.dropWhile_cons_of_pos (by simp), has, List.dropWhile_cons_of_neg (by simp [hd])]
  unfold rustParent
  simp only [htr, hr, hr2]
  rw [if_neg (by simp), if_neg (by simp), if_neg (by simpa using ha0), List.reverse_reverse]

/-- For a gitdir path `mgit ++ "/worktrees/" ++ tail` with `tail` a single
clean component and `mgit` clean and non-empty, `ancestors().nth(2)`
recovers `mgit`. -/
theorem ancestorsNth2_worktrees (mgit tail : List Char) (hm0 : mgit ≠ [])
    (hm1 : mgit.reverse.head? ≠ some '/') (ht0 : tail ≠ []) (ht1 : '/' ∉ tail) :
    ancestorsNth2 ((mgit ++ '/' :: "worktrees".toList) ++ '/' :: tail) = some mgit := by
  have hw0 : (mgit ++ '/' :: "worktrees".toList) ≠ [] := by simp
  have hwrev : (mgit ++ '/' :: "worktrees".toList).reverse
      = 's' :: ("eertkrow".toList ++ '/' :: mgit.reverse) := by
    rw [List.reverse_append, List.reverse_cons,
      show ("worktrees".toList).reverse = 's' :: "eertkrow".toList from by decide]
    simp [List.append_assoc]
  have hw1 : (mgit ++ '/' :: "worktrees".toList).reverse.head? ≠ some '/' := by
    rw [hwrev]
    simp
  unfold ancestorsNth2
  rw [rustParent_append _ _ hw0 hw1 ht0 ht1, Option.some_bind,
    rustParent_append _ _ hm0 hm1 (by decide) (by decide)]

/-- An element of the argument vector is a contiguous substring of the
joined command string. -/
theorem mem_infix_rustJoin (sep : List Char) :
    ∀ (l : List (List Char)) (a : List Char), a ∈ l → a <:+: rustJoin sep l := by
  intro l
  induction l with
  | nil => intro a h; cases h
  | cons x t ih =>
    intro a h
    rcases List.mem_cons.mp h with rfl | hmem
    · cases t with
      | nil => exact ⟨[], [], by simp [rustJoin]⟩
      | cons y t' => exact ⟨[], sep ++ rustJoin sep (y :: t'), by simp [rustJoin, List.append_assoc]⟩
    · have hnil : t ≠ [] := by rintro rfl; cases hmem
      obtain ⟨y, t', rfl⟩ := List.exists_cons_of_ne_nil hnil
      obtain ⟨u, v, huv⟩ := ih a hmem
      exact ⟨x ++ sep ++ u, v, by rw [show rustJoin sep (x :: y :: t') = x ++ sep ++ rustJoin sep (y :: t') from rfl, ← huv]; simp [List.append_assoc]⟩

/-- Claim C8. For a worktree whose `.git` entry is a regular file with content
`"gitdir: " ++ raw`, where `raw` trims to the path
`mgit ++ "/worktrees/" ++ tail` (i.e. `main/.git/worktrees/<name>` with
`mgit` the main repo's `.git` directory and `<name>` a single clean
component), `wrap_for_container` succeeds and its argument vector contains
both the mirror bind mount of the worktree root (source equal to target)
and a second bind mount whose source and target both equal `mgit`; the
latter is a contiguous substring of the joined command string. -/
theorem wrap_for_container_mounts_main_git (command : List Char)
    (rt : ContainerRuntime) (envs : List (List Char)) (img wt cwd : List Char)
    (uid gid : Nat) (sandboxPaths : Option (List Char × List Char)) (f1 f2 : Bool)
    (envPresent : List Char → Bool) (raw mgit tail : List Char)
    (htrim : rustTrim raw = (mgit ++ '/' :: "worktrees".toList) ++ '/' :: tail)
    (hm0 : mgit ≠ []) (hm1 : mgit.reverse.head? ≠ some '/')
    (ht0 : tail ≠ []) (ht1 : '/' ∉ tail) :
    ∃ args,
      wrap_for_container command ⟨rt, some img, envs⟩ wt cwd uid gid
          (some ("gitdir: ".toList ++ raw)) sandboxPaths f1 f2 envPresent = .ok args ∧
        bindMountArg wt wt ∈ args ∧
        bindMountArg mgit mgit ∈ args ∧
        bindMountArg mgit mgit <:+: rustJoin [' '] args := by
  have hsp : stripPrefixL "gitdir: ".toList ("gitdir: ".toList ++ raw) = some raw :=
    stripPrefixL_self_append _ _
  have hgit : gitMountArgs (some ("gitdir: ".toList ++ raw))
      = ["--mount".toList, bindMountArg mgit mgit] := by
    simp only [gitMountArgs, hsp, htrim,
      ancestorsNth2_worktrees mgit tail hm0 hm1 ht0 ht1]
  refine ⟨_, rfl, ?_, ?_, ?_⟩
  · simp [List.mem_append]
  · rw [hgit]
    simp [List.mem_append]
  · refine mem_infix_rustJoin [' '] _ _ ?_
    rw [hgit]
    simp [List.mem_append]

/-- Concrete container config for the C8 witness. -/
def c8config : ContainerConfig :=
  ⟨.docker, some "workmux-sandbox".toList, []⟩

/-- Closed instance of C8, at a `.git` file whose content carries the usual
trailing newline. -/
theorem wrap_for_container_mounts_main_git_witness :
    ∃ args,
      wrap_for_container "claude".toList c8config "/repo/wt/feat".toList
          "/repo/wt/feat".toList 1000 1000
          (some ("gitdir: ".toList ++ "/repo/main/.git/worktrees/feat\n".toList))
          none false false (fun _ => false) = .ok args ∧
        bindMountArg "/repo/wt/feat".toList "/repo/wt/feat".toList ∈ args ∧
        bindMountArg "/repo/main/.git".toList "/repo/main/.git".toList ∈ args ∧
        bindMountArg "/repo/main/.git".toList "/repo/main/.git".toList <:+:
          rustJoin [' '] args :=
  wrap_for_container_mounts_main_git "claude".toList .docker []
    "workmux-sandbox".toList "/repo/wt/feat".toList "/repo/wt/feat".toList 1000 1000
    none false false (fun _ => false) "/repo/main/.git/worktrees/feat\n".toList
    "/repo/main/.git".toList "feat".toList (by decide) (by decide) (by decide)
    (by decide) (by decide)

/-! ## The `set-window-status` command (claim C9)

From `src/command/set_window_status.rs`.  After `Config::load` (whose two
fields read here — `status_format` and the status icons — are passed in),
the command asks the backend for the current pane id and *fails silently*
when there is none.  With a pane, it performs a sequence of multiplexer and
done-stack calls; we record that sequence as a trace of `StatusAction`s
(the trace is the complete list of backend/done-stack calls the code makes,
in order; backend call failures, which the code propagates with `?`, are
orthogonal to the claim, which is about the no-pane branch). -/

/-- The four `set-window-status` subcommands. -/
inductive SWSCommand where
  | working
  | waiting
  | done
  | clear
deriving DecidableEq

/-- The status-icon strings from the config. -/
structure StatusIcons where
  working : List Char
  waiting : List Char
  done : List Char
deriving DecidableEq

/-- One multiplexer or done-stack call made by `set_window_status::run`. -/
inductive StatusAction where
  | ensureStatusFormat (pane : List Char)
  | setStatus (pane icon : List Char) (flag : Bool)
  | clearStatus (pane : List Char)
  | pushDonePane (pane : List Char)
  | popDonePane (pane : List Char)
deriving DecidableEq

/-- Function `set_window_status::run`: silently return `Ok` with no action when the
backend reports no current pane; otherwise apply the status format (unless
configured off or clearing) and then the per-subcommand calls, in program
order. -/
def set_window_status_run (cmd : SWSCommand) (status_format : Option Bool)
    (icons : StatusIcons) (currentPane : Option (List Char)) :
    Except (List Char) (List StatusAction) :=
  match currentPane with
  | none => .ok []
  | some pane =>
    let pre :=
      if status_format.getD true ∧ ¬ cmd = .clear then
        [StatusAction.ensureStatusFormat pane]
      else []
    .ok (pre ++
      match cmd with
      | .working => [.popDonePane pane, .setStatus pane icons.working true]
      | .waiting => [.popDonePane pane, .setStatus pane icons.waiting true]
      | .done => [.pushDonePane pane, .setStatus pane icons.done true]
      | .clear => [.popDonePane pane, .clearStatus pane])

/-- Claim C9. For every `set-window-status` subcommand and every
configuration, if the multiplexer backend reports no current pane id (the
process is not inside a multiplexer session), the command returns success
having performed no action at all: no status is set or cleared and the done
stack is untouched. -/
theorem set_window_status_no_pane_noop (cmd : SWSCommand)
    (status_format : Option Bool) (icons : StatusIcons) :
    set_window_status_run cmd status_format icons none = .ok [] := rfl

end Workmux
